import Mathlib

/-!
Verification of the telemetry-pipeline repository: a shallow embedding, over
exact rationals and integers, of the resampling engine (`data_source.py`),
the wire packet encoding (`telemetry_packet.py`), and the paced UDP send loop
(`udp_streamer.py`), together with theorems settling the specification claims.

Modelling conventions:
- Python floats are embedded as `ℚ` (exact arithmetic), Python ints as `ℤ`/`ℕ`.
- Missing values (`NaN`) in a pandas column are embedded as `none : Option ℚ`.
- `np.random.normal` draws and `np.sin` values are passed in as explicit
  oracle parameters (they are data, never branched on by the claims).
-/

namespace TelemetryPipeline

/-! ### config.py -/

def BASE_FREQUENCY_HZ : ℕ := 500

def UDP_PORT : ℕ := 20777

def MAX_LATENCY_MS : ℚ := 10

def PACKET_INTERVAL_MS : ℚ := 1000 / (BASE_FREQUENCY_HZ : ℚ)

def TARGET_CAR_NUMBER : ℤ := 44

/-! ### Python numeric primitives -/

/-- Python `int(x)` on a real value: truncation toward zero. -/
def pyInt (x : ℚ) : ℤ := if 0 ≤ x then ⌊x⌋ else ⌈x⌉

/-- Python `round(x)` to an integer: round half to even (banker's rounding). -/
def pyRound (x : ℚ) : ℤ :=
  let f : ℤ := ⌊x⌋
  let r : ℚ := x - f
  if r < 1/2 then f
  else if 1/2 < r then f + 1
  else if f % 2 = 0 then f else f + 1

/-- Python `round(x, n)`: round to `n` decimal places, half to even. -/
def roundTo (n : ℕ) (x : ℚ) : ℚ := (pyRound (x * 10 ^ n) : ℚ) / 10 ^ n

/-! ### telemetry_packet.py -/

/-- Source `PacketPriority(IntEnum)`: CRITICAL = 0, HIGH = 1, MEDIUM = 2, LOW = 3. -/
inductive PacketPriority where
  | CRITICAL
  | HIGH
  | MEDIUM
  | LOW
deriving DecidableEq, Repr

/-- The `F1TelemetryPacket` dataclass.  Field defaults mirror the dataclass
defaults; for the three tyre lists the dataclass default is `None` and
`__post_init__` replaces `None` with the lists recorded here, so constructing
a packet without those arguments yields exactly these lists. -/
structure F1TelemetryPacket where
  timestamp_ms : ℤ
  car_number : ℤ
  packet_id : ℕ
  priority : PacketPriority := PacketPriority.HIGH
  speed_kmh : ℤ := 0
  throttle_percent : ℚ := 0
  brake_percent : ℚ := 0
  steering_angle : ℚ := 0
  gear : ℤ := 0
  engine_rpm : ℤ := 0
  drs_active : Bool := false
  oil_pressure_bar : ℚ := 0
  oil_temp_c : ℤ := 0
  water_temp_c : ℤ := 0
  exhaust_temp_c : ℤ := 0
  tyre_pressure_psi : List ℚ := [23, 23, 21, 21]
  tyre_temp_surface_c : List ℤ := [90, 90, 85, 85]
  tyre_temp_core_c : List ℤ := [95, 95, 90, 90]
  ers_store_j : ℚ := 0
  ers_deploy_mode : ℤ := 0
  mguk_power_w : ℚ := 0
  mguh_power_w : ℚ := 0
  fuel_flow_rate_kg_h : ℚ := 0
  fuel_remaining_kg : ℚ := 0
deriving DecidableEq, Repr

/-- The keyed map that `to_udp_bytes` serializes with msgpack.  msgpack is an
external, lossless map serializer, so the wire content is embedded as the map
itself (one field per short key of the source dict). -/
structure WirePacket where
  t : ℤ
  id : ℕ
  p : PacketPriority
  spd : ℤ
  thr : ℚ
  brk : ℚ
  str : ℚ
  g : ℤ
  rpm : ℤ
  drs : Bool
  oilp : ℚ
  oilt : ℤ
  h2ot : ℤ
  tp : List ℚ
  tt : List ℤ
  ers : ℚ
  mguk : ℚ
  fuel : ℚ
deriving DecidableEq, Repr

/-- Source `F1TelemetryPacket.to_udp_bytes`: builds the keyed dict (with the source's
per-field roundings) that is handed to `msgpack.packb`. -/
def to_udp_bytes (pkt : F1TelemetryPacket) : WirePacket where
  t := pkt.timestamp_ms
  id := pkt.packet_id
  p := pkt.priority
  spd := pkt.speed_kmh
  thr := roundTo 2 pkt.throttle_percent
  brk := roundTo 2 pkt.brake_percent
  str := roundTo 3 pkt.steering_angle
  g := pkt.gear
  rpm := pkt.engine_rpm
  drs := pkt.drs_active
  oilp := roundTo 1 pkt.oil_pressure_bar
  oilt := pkt.oil_temp_c
  h2ot := pkt.water_temp_c
  tp := pkt.tyre_pressure_psi.map (roundTo 1)
  tt := pkt.tyre_temp_surface_c
  ers := roundTo 0 pkt.ers_store_j
  mguk := roundTo 0 pkt.mguk_power_w
  fuel := roundTo 2 pkt.fuel_flow_rate_kg_h

/-- Source `F1TelemetryPacket.from_udp_bytes`: rebuilds a packet from the unpacked
map.  Exactly the keyword arguments of the source are set; `car_number` is
hardcoded to 1, and every field not present in the map keeps its constructor
default (including the `__post_init__` fill of `tyre_temp_core_c`). -/
def from_udp_bytes (w : WirePacket) : F1TelemetryPacket where
  timestamp_ms := w.t
  car_number := 1
  packet_id := w.id
  priority := w.p
  speed_kmh := w.spd
  throttle_percent := w.thr
  brake_percent := w.brk
  steering_angle := w.str
  gear := w.g
  engine_rpm := w.rpm
  drs_active := w.drs
  oil_pressure_bar := w.oilp
  oil_temp_c := w.oilt
  water_temp_c := w.h2ot
  tyre_pressure_psi := w.tp
  tyre_temp_surface_c := w.tt
  ers_store_j := w.ers
  mguk_power_w := w.mguk
  fuel_flow_rate_kg_h := w.fuel

/-! ### data_source.py — `_interpolate_to_realistic_rate` (the Resampler)

A pandas column is embedded as a list of `(time, value)` pairs; the `Time`
index is a `ℚ` number of seconds.  `df.drop_duplicates(subset=['Time'],
keep='first')` and `df.sort_values('Time')` are embedded by
`dropDupTimes` / `sortByTime` (values are generic so the same cleaning
applies to the time column and to each channel column of the same frame). -/

/-- Source `drop_duplicates(subset=['Time'], keep='first')`: keep the first row seen
for each time key, preserving order. -/
def dropDupTimesAux {α : Type} (seen : List ℚ) : List (ℚ × α) → List (ℚ × α)
  | [] => []
  | p :: ps =>
    if p.1 ∈ seen then dropDupTimesAux seen ps
    else p :: dropDupTimesAux (p.1 :: seen) ps

def dropDupTimes {α : Type} (l : List (ℚ × α)) : List (ℚ × α) :=
  dropDupTimesAux [] l

/-- Stable insertion into a time-sorted list (equal keys keep prior order). -/
def insertByTime {α : Type} (p : ℚ × α) : List (ℚ × α) → List (ℚ × α)
  | [] => [p]
  | q :: qs => if p.1 < q.1 then p :: q :: qs else q :: insertByTime p qs

/-- Source `sort_values('Time')` (pandas sorts are stable for our purposes). -/
def sortByTime {α : Type} (l : List (ℚ × α)) : List (ℚ × α) :=
  l.foldr insertByTime []

/-- Lines 204–205 of `data_source.py`: dedup by time, then sort by time. -/
def cleanSeries {α : Type} (l : List (ℚ × α)) : List (ℚ × α) :=
  sortByTime (dropDupTimes l)

/-- Source `np.linspace(0, d, n)`: `n` evenly spaced points from 0 to `d` inclusive
(`[0]` for `n = 1`, `[]` for `n = 0`). -/
def linspace (d : ℚ) (n : ℕ) : List ℚ :=
  if n ≤ 1 then (List.range n).map (fun _ => 0)
  else (List.range n).map (fun i : ℕ => d * (i : ℚ) / ((n : ℚ) - 1))

/-- The `duration` of lines 207–209: last time minus first time of the
cleaned frame (0 for an empty frame, a case the source returns early on). -/
def rawSpan {α : Type} (raw : List (ℚ × α)) : ℚ :=
  match (cleanSeries raw).map Prod.fst with
  | [] => 0
  | t :: ts => (t :: ts).getLast (List.cons_ne_nil _ _) - t

/-- Source `target_samples = int(duration * target_hz)` (line 213). -/
def targetSamples {α : Type} (raw : List (ℚ × α)) (hz : ℕ) : ℤ :=
  ⌊rawSpan raw * hz⌋

/-- Lines 207–214 + 225: the uniform output time index
`pd.to_timedelta(np.linspace(0, duration, target_samples)) + start_time`. -/
def resampleGrid {α : Type} (raw : List (ℚ × α)) (hz : ℕ) : List ℚ :=
  match (cleanSeries raw).map Prod.fst with
  | [] => []
  | t :: ts =>
    let duration := (t :: ts).getLast (List.cons_ne_nil _ _) - t
    (linspace duration (⌊duration * hz⌋).toNat).map (fun x => x + t)

/-- The `pad` lookup of `Index.get_indexer`: the last original point whose time
is ≤ the target time. -/
def padPoint (pts : List (ℚ × ℚ)) (t : ℚ) : Option (ℚ × ℚ) :=
  (pts.filter (fun p => decide (p.1 ≤ t))).getLast?

/-- The `backfill` lookup of `Index.get_indexer`: the first original point whose
time is ≥ the target time. -/
def backfillPoint (pts : List (ℚ × ℚ)) (t : ℚ) : Option (ℚ × ℚ) :=
  pts.find? (fun p => decide (t ≤ p.1))

/-- pandas `reindex(method='nearest')` resolution for one target time on a
monotonic index: take the nearer of the pad/backfill candidates, preferring
the backfill (later) candidate when the two distances are equal — this is
`np.where(op(left_dist, right_dist) | (right == -1), left, right)` with
`op = lt` for a monotonically increasing index. -/
def nearestPoint (pts : List (ℚ × ℚ)) (t : ℚ) : Option (ℚ × ℚ) :=
  match padPoint pts t, backfillPoint pts t with
  | none, r => r
  | some l, none => some l
  | some l, some r => if t - l.1 < r.1 - t then some l else some r

/-- Source `series.reindex(df_uniform.index, method='nearest')`: one (possibly
missing) value per grid point. -/
def reindexNearest (pts : List (ℚ × ℚ)) (grid : List ℚ) : List (Option ℚ) :=
  grid.map (fun t => (nearestPoint pts t).map Prod.snd)

/-- Last non-missing entry strictly before position `i`, with its position. -/
def lastValidBefore (v : List (Option ℚ)) (i : ℕ) : Option (ℕ × ℚ) :=
  ((v.take i).enum.reverse).findSome? (fun jo => jo.2.map (fun x => (jo.1, x)))

/-- First non-missing entry strictly after position `i`, with its position. -/
def firstValidAfter (v : List (Option ℚ)) (i : ℕ) : Option (ℕ × ℚ) :=
  (v.enum.drop (i + 1)).findSome? (fun jo => jo.2.map (fun x => (jo.1, x)))

/-- pandas `interpolate(method='linear')` at one position: a present value is
kept; a missing value between two present ones is linearly interpolated by
position; trailing missing values are padded with the last present value;
leading missing values stay missing. -/
def interpAt (v : List (Option ℚ)) (i : ℕ) : Option ℚ :=
  match v[i]? with
  | some (some x) => some x
  | _ =>
    match lastValidBefore v i, firstValidAfter v i with
    | some jx, some ky => some (jx.2 + (ky.2 - jx.2) * ((i : ℚ) - jx.1) / ((ky.1 : ℚ) - jx.1))
    | some jx, none => some jx.2
    | none, _ => none

/-- Source `series.interpolate(method='linear')` over the whole column. -/
def interpolateLinear (v : List (Option ℚ)) : List (Option ℚ) :=
  (List.range v.length).map (interpAt v)

/-- Source `.fillna(0)` on the reindexed column. -/
def fillna0 (v : List (Option ℚ)) : List ℚ :=
  v.map (fun o => o.getD 0)

/-- Lines 228–231 of `data_source.py` for one continuous channel: clean the
frame, `fillna(0)` the raw values, reindex to the uniform grid with
`method='nearest'`, linearly interpolate, and `fillna(0)` the result. -/
def resampleContinuous (raw : List (ℚ × Option ℚ)) (hz : ℕ) : List ℚ :=
  let pts := (cleanSeries raw).map (fun p => (p.1, p.2.getD 0))
  fillna0 (interpolateLinear (reindexNearest pts (resampleGrid raw hz)))

/-! ### data_source.py — lap boundaries and `_get_current_lap_info` -/

/-- One entry of `self.lap_boundaries`: `(start_idx, end_idx, lap_number,
lap_time)`, inclusive indices into the concatenated raw sequence. -/
structure LapBoundary where
  start_idx : ℕ
  end_idx : ℕ
  lapNum : ℕ
  lapTime : ℚ
deriving DecidableEq, Repr

/-- Source `original_total_samples = sum(end - start + 1 for ...)` (line 152). -/
def sumSamples (bs : List LapBoundary) : ℤ :=
  (bs.map (fun b => (b.end_idx : ℤ) - b.start_idx + 1)).sum

/-- Source `scale_factor = total_interpolated_samples / original_total_samples if
original_total_samples > 0 else 1` (line 153). -/
def scaleFactor (bs : List LapBoundary) (U : ℕ) : ℚ :=
  if 0 < sumSamples bs then (U : ℚ) / (sumSamples bs : ℚ) else 1

/-- Source `scaled_start = int(start_idx * scale_factor)` (line 157). -/
def scaledStart (σ : ℚ) (b : LapBoundary) : ℤ :=
  ⌊(b.start_idx : ℚ) * σ⌋

/-- Source `scaled_end = int((end_idx + 1) * scale_factor) - 1` (line 158). -/
def scaledEnd (σ : ℚ) (b : LapBoundary) : ℤ :=
  ⌊((b.end_idx : ℚ) + 1) * σ⌋ - 1

/-- The scan loop of lines 156–163: return the first boundary whose scaled
range contains the query index, with its progress percentage. -/
def lapScan (σ : ℚ) (idx : ℕ) : List LapBoundary → Option (ℕ × ℚ × Option ℚ)
  | [] => none
  | b :: bs =>
    let ss := scaledStart σ b
    let se := scaledEnd σ b
    if ss ≤ (idx : ℤ) ∧ (idx : ℤ) ≤ se then
      let len : ℤ := se - ss + 1
      some (b.lapNum,
            if 0 < len then (((idx : ℤ) - ss : ℤ) : ℚ) / (len : ℚ) * 100 else 0,
            some b.lapTime)
    else lapScan σ idx bs

/-- Source `_get_current_lap_info(telemetry_idx, total_interpolated_samples)`
(lines 147–166): empty table → `(1, 0.0, None)`; otherwise scan the scaled
boundaries, falling back to the last boundary at 100% progress. -/
def getCurrentLapInfo (bs : List LapBoundary) (idx U : ℕ) : ℕ × ℚ × Option ℚ :=
  match bs with
  | [] => (1, 0, none)
  | b :: rest =>
    match lapScan (scaleFactor (b :: rest) U) idx (b :: rest) with
    | some r => r
    | none =>
      (((b :: rest).getLast (List.cons_ne_nil _ _)).lapNum, 100,
       some (((b :: rest).getLast (List.cons_ne_nil _ _)).lapTime))

/-- A valid lap-boundary table starting at raw index `s` and ending at raw
index `r - 1`: each boundary starts where told, is non-empty, and the next
boundary starts right after it (`end_index` of lap n = `start_index` of lap
n+1 minus 1). -/
def ChainFrom : ℕ → List LapBoundary → ℕ → Prop
  | s, [], r => s = r
  | s, b :: bs, r => b.start_idx = s ∧ b.start_idx ≤ b.end_idx ∧ ChainFrom (b.end_idx + 1) bs r

/-- The claims' "valid LapBoundary table" over a raw sequence of length `R`:
non-empty, contiguous from raw index 0, ordered, with the last `end_index`
equal to `R - 1`. -/
def ValidBoundaries (bs : List LapBoundary) (R : ℕ) : Prop :=
  bs ≠ [] ∧ ChainFrom 0 bs R

/-! ### data_source.py — `_simulate_sensor_data` and `generate_packets` -/

/-- One row of the interpolated telemetry frame: a missing (`NaN`) channel
value is `none`.  (`Brake` is already numeric here — `_clean_telemetry_data`
converted the boolean column to floats before interpolation.) -/
structure Row where
  speed : Option ℚ := none
  throttle : Option ℚ := none
  brake : Option ℚ := none
  gear : Option ℚ := none
  rpm : Option ℚ := none
  drs : Option ℚ := none
deriving DecidableEq, Repr

/-- Oracle inputs for the nondeterministic / transcendental parts of
`_simulate_sensor_data`: the two `np.random.normal(0, 2)` draws and the value
of `np.sin(self.packet_counter / 100)`. -/
structure Noise where
  n1 : ℚ
  n2 : ℚ
  sinc : ℚ
deriving DecidableEq, Repr

/-- The dict returned by `_simulate_sensor_data`. -/
structure SensorData where
  oil_pressure : ℚ
  oil_temp : ℤ
  water_temp : ℤ
  exhaust_temp : ℤ
  ers_store : ℚ
  mguk_power : ℚ
  fuel_flow : ℚ
  tyre_temps : List ℤ
  tyre_core_temps : List ℤ
deriving DecidableEq, Repr

/-- Source `_simulate_sensor_data(base_telemetry)` (lines 256–320). -/
def simulateSensorData (row : Row) (noise : Noise) : SensorData :=
  let rpm := row.rpm.getD 8000
  let throttle := row.throttle.getD 0 / 100
  let speed := row.speed.getD 0
  let brake := row.brake.getD 0
  let drs := row.drs.getD 0
  let speed_factor := if 0 < speed then speed / 350 else 0
  let frontTyre := pyInt (80 + speed_factor * 20 + brake * 30)
  let rearTyre := pyInt (80 + speed_factor * 15)
  let tyre_temps := [frontTyre, frontTyre, rearTyre, rearTyre]
  { oil_pressure := 4 + rpm / 15000 * 2
    oil_temp := pyInt (90 + throttle * 20 + noise.n1)
    water_temp := pyInt (85 + throttle * 25 + noise.n2)
    exhaust_temp := pyInt (600 + throttle * 300)
    ers_store := 4000000 * (1/2 + 1/2 * noise.sinc)
    mguk_power := if 0 < drs then throttle * 120000 else 0
    fuel_flow := throttle * 100
    tyre_temps := tyre_temps
    tyre_core_temps := tyre_temps.map (fun temp => temp + 5) }

/-- The priority selection of `generate_packets` (lines 370–374): start at
HIGH, override to CRITICAL when the simulated water temperature exceeds 120,
else re-assign HIGH when DRS is open. -/
def packetPriority (water_temp : ℤ) (drs : ℚ) : PacketPriority :=
  if 120 < water_temp then PacketPriority.CRITICAL
  else if 0 < drs then PacketPriority.HIGH
  else PacketPriority.HIGH

/-- Source `safe_int(value, default=0)` of `generate_packets`. -/
def safeInt (v : Option ℚ) : ℤ :=
  match v with
  | none => 0
  | some x => pyInt x

/-- Source `safe_float(value, default=0.0)` of `generate_packets`. -/
def safeFloat (v : Option ℚ) : ℚ := v.getD 0

/-- The packet construction of lines 392–425 for one telemetry row. -/
def mkPacket (base_ts : ℤ) (counter : ℕ) (row : Row) (noise : Noise) :
    F1TelemetryPacket :=
  let sd := simulateSensorData row noise
  { timestamp_ms := base_ts + pyInt ((counter : ℚ) * PACKET_INTERVAL_MS)
    car_number := TARGET_CAR_NUMBER
    packet_id := counter
    priority := packetPriority sd.water_temp (row.drs.getD 0)
    speed_kmh := safeInt row.speed
    throttle_percent := safeFloat row.throttle / 100
    brake_percent := safeFloat row.brake
    steering_angle := 0
    gear := safeInt row.gear
    engine_rpm := safeInt row.rpm
    drs_active := decide (safeFloat row.drs ≠ 0)
    oil_pressure_bar := sd.oil_pressure
    oil_temp_c := sd.oil_temp
    water_temp_c := sd.water_temp
    exhaust_temp_c := sd.exhaust_temp
    tyre_pressure_psi := [23, 23, 21, 21]
    tyre_temp_surface_c := sd.tyre_temps
    tyre_temp_core_c := sd.tyre_core_temps
    ers_store_j := sd.ers_store
    mguk_power_w := sd.mguk_power
    fuel_flow_rate_kg_h := sd.fuel_flow
    fuel_remaining_kg := 110 - (counter : ℚ) * (1/10000) }

/-- The packet loop of `generate_packets`: yield one packet per interpolated
row, reading and then incrementing `self.packet_counter`. -/
def generatePacketsAux (base_ts : ℤ) : ℕ → List (Row × Noise) → List F1TelemetryPacket
  | _, [] => []
  | c, rn :: rest => mkPacket base_ts c rn.1 rn.2 :: generatePacketsAux base_ts (c + 1) rest

/-- Source `generate_packets` for a fresh data source (`packet_counter = 0` from
`__init__`, line 19). -/
def generatePackets (base_ts : ℤ) (rows : List (Row × Noise)) : List F1TelemetryPacket :=
  generatePacketsAux base_ts 0 rows

/-! ### udp_streamer.py — `stream_session` -/

/-- The streamer counters: `packets_sent`, `packets_dropped`, `bytes_sent`,
and the rolling latency window (`deque(maxlen=1000)`, in microseconds). -/
structure StreamStats where
  packets_sent : ℕ := 0
  packets_dropped : ℕ := 0
  bytes_sent : ℕ := 0
  latencies_us : List ℚ := []
deriving DecidableEq, Repr

/-- Append to a `deque(maxlen=1000)`: the oldest entries fall off the front
once the window holds 1000 latencies. -/
def pushLatency (l : List ℚ) (lat : ℚ) : List ℚ :=
  let l' := l ++ [lat]
  if 1000 < l'.length then l'.drop (l'.length - 1000) else l'

/-- The outcome of one non-blocking `socket.sendto` attempt: success with a
measured latency (microseconds), or `BlockingIOError` (outbound buffer
full). -/
inductive SendOutcome where
  | success (latency_us : ℚ)
  | backpressure
deriving DecidableEq, Repr

/-- Lines 56–79 of `udp_streamer.py` for one packet of wire size `size`:
on success record the latency, count a drop when the latency exceeds
`MAX_LATENCY_MS * 1000` microseconds, then count the packet as sent; on
`BlockingIOError` count a drop only. -/
def processPacket (size : ℕ) (o : SendOutcome) (st : StreamStats) : StreamStats :=
  match o with
  | SendOutcome.success lat =>
    let st₁ := { st with latencies_us := pushLatency st.latencies_us lat }
    let st₂ :=
      if MAX_LATENCY_MS * 1000 < lat then
        { st₁ with packets_dropped := st₁.packets_dropped + 1 }
      else st₁
    { st₂ with packets_sent := st₂.packets_sent + 1,
               bytes_sent := st₂.bytes_sent + size }
  | SendOutcome.backpressure =>
    { st with packets_dropped := st.packets_dropped + 1 }

/-- The `for packet in data_source.generate_packets(...)` loop, with each
packet reduced to its wire size and the outcome of its send attempt (the
sleep-based pacing touches no counter). -/
def streamLoop (st : StreamStats) : List (ℕ × SendOutcome) → StreamStats
  | [] => st
  | pkt :: rest => streamLoop (processPacket pkt.1 pkt.2 st) rest

/-! ### Claim C5 — priority classification -/

/-- Claim C5: for every uniform sample, the packet priority is CRITICAL
exactly when the simulated cooling (water) temperature exceeds 120 °C —
regardless of the wing-assist (DRS) flag — and HIGH otherwise; the rule never
assigns MEDIUM or LOW. -/
theorem C5_priority_critical_iff_overheat (row : Row) (noise : Noise) :
    packetPriority (simulateSensorData row noise).water_temp (row.drs.getD 0) =
      (if 120 < (simulateSensorData row noise).water_temp then PacketPriority.CRITICAL
       else PacketPriority.HIGH) ∧
    packetPriority (simulateSensorData row noise).water_temp (row.drs.getD 0) ≠
      PacketPriority.MEDIUM ∧
    packetPriority (simulateSensorData row noise).water_temp (row.drs.getD 0) ≠
      PacketPriority.LOW := by
  unfold packetPriority
  refine ⟨?_, ?_, ?_⟩ <;> split <;> simp

/-! ### Claim C6 — wire round-trip of the encoded fields -/

/-- Claim C6: decoding the wire form produced by encoding a packet recovers
every field the encoding writes, exactly up to the per-field rounding
(throttle/brake to 2 decimals, steering to 3, oil pressure and tyre pressures
to 1, ers/mguk to integers, fuel flow to 2 decimals). -/
theorem C6_roundtrip_encoded_fields (pkt : F1TelemetryPacket) :
    (from_udp_bytes (to_udp_bytes pkt)).timestamp_ms = pkt.timestamp_ms ∧
    (from_udp_bytes (to_udp_bytes pkt)).packet_id = pkt.packet_id ∧
    (from_udp_bytes (to_udp_bytes pkt)).priority = pkt.priority ∧
    (from_udp_bytes (to_udp_bytes pkt)).speed_kmh = pkt.speed_kmh ∧
    (from_udp_bytes (to_udp_bytes pkt)).throttle_percent = roundTo 2 pkt.throttle_percent ∧
    (from_udp_bytes (to_udp_bytes pkt)).brake_percent = roundTo 2 pkt.brake_percent ∧
    (from_udp_bytes (to_udp_bytes pkt)).steering_angle = roundTo 3 pkt.steering_angle ∧
    (from_udp_bytes (to_udp_bytes pkt)).gear = pkt.gear ∧
    (from_udp_bytes (to_udp_bytes pkt)).engine_rpm = pkt.engine_rpm ∧
    (from_udp_bytes (to_udp_bytes pkt)).drs_active = pkt.drs_active ∧
    (from_udp_bytes (to_udp_bytes pkt)).oil_pressure_bar = roundTo 1 pkt.oil_pressure_bar ∧
    (from_udp_bytes (to_udp_bytes pkt)).oil_temp_c = pkt.oil_temp_c ∧
    (from_udp_bytes (to_udp_bytes pkt)).water_temp_c = pkt.water_temp_c ∧
    (from_udp_bytes (to_udp_bytes pkt)).tyre_pressure_psi =
      pkt.tyre_pressure_psi.map (roundTo 1) ∧
    (from_udp_bytes (to_udp_bytes pkt)).tyre_temp_surface_c = pkt.tyre_temp_surface_c ∧
    (from_udp_bytes (to_udp_bytes pkt)).ers_store_j = roundTo 0 pkt.ers_store_j ∧
    (from_udp_bytes (to_udp_bytes pkt)).mguk_power_w = roundTo 0 pkt.mguk_power_w ∧
    (from_udp_bytes (to_udp_bytes pkt)).fuel_flow_rate_kg_h =
      roundTo 2 pkt.fuel_flow_rate_kg_h :=
  ⟨rfl, rfl, rfl, rfl, rfl, rfl, rfl, rfl, rfl, rfl, rfl, rfl, rfl, rfl, rfl, rfl, rfl, rfl⟩

/-! ### Claim C10 — fields omitted from the wire encoding -/

/-- Claim C10: decoding the encoding of any packet yields `car_number = 1`
regardless of the original, and the constructed defaults for the five fields
that the encoding omits (`exhaust_temp_c`, `tyre_temp_core_c` — whose `None`
dataclass default is replaced by `__post_init__` — `ers_deploy_mode`,
`mguh_power_w`, `fuel_remaining_kg`). -/
theorem C10_unencoded_fields_are_defaults (pkt : F1TelemetryPacket) :
    (from_udp_bytes (to_udp_bytes pkt)).car_number = 1 ∧
    (from_udp_bytes (to_udp_bytes pkt)).exhaust_temp_c = 0 ∧
    (from_udp_bytes (to_udp_bytes pkt)).tyre_temp_core_c = [95, 95, 90, 90] ∧
    (from_udp_bytes (to_udp_bytes pkt)).ers_deploy_mode = 0 ∧
    (from_udp_bytes (to_udp_bytes pkt)).mguh_power_w = 0 ∧
    (from_udp_bytes (to_udp_bytes pkt)).fuel_remaining_kg = 0 :=
  ⟨rfl, rfl, rfl, rfl, rfl, rfl⟩

/-! ### Claim C7 — transport backpressure is a counted, non-fatal drop -/

/-- Claim C7: a packet whose non-blocking send hits transport backpressure
increments the drop counter by exactly 1 (sent/byte counters untouched), the
loop continues, and the immediately following packet is still processed and
sent. -/
theorem C7_backpressure_drops_and_continues (st : StreamStats) (sz₁ sz₂ : ℕ) (lat : ℚ)
    (rest : List (ℕ × SendOutcome)) (hlat : ¬ MAX_LATENCY_MS * 1000 < lat) :
    (processPacket sz₁ SendOutcome.backpressure st).packets_dropped =
      st.packets_dropped + 1 ∧
    (processPacket sz₁ SendOutcome.backpressure st).packets_sent = st.packets_sent ∧
    (processPacket sz₁ SendOutcome.backpressure st).bytes_sent = st.bytes_sent ∧
    streamLoop st ((sz₁, SendOutcome.backpressure) :: rest) =
      streamLoop (processPacket sz₁ SendOutcome.backpressure st) rest ∧
    (streamLoop st [(sz₁, SendOutcome.backpressure),
        (sz₂, SendOutcome.success lat)]).packets_dropped = st.packets_dropped + 1 ∧
    (streamLoop st [(sz₁, SendOutcome.backpressure),
        (sz₂, SendOutcome.success lat)]).packets_sent = st.packets_sent + 1 ∧
    (streamLoop st [(sz₁, SendOutcome.backpressure),
        (sz₂, SendOutcome.success lat)]).bytes_sent = st.bytes_sent + sz₂ := by
  refine ⟨rfl, rfl, rfl, rfl, ?_, ?_, ?_⟩ <;>
    simp [streamLoop, processPacket, hlat]

/-- Witness for C7 at a concrete state and a concrete in-budget latency. -/
theorem C7_witness :
    (processPacket 10 SendOutcome.backpressure ⟨0, 0, 0, []⟩).packets_dropped = 0 + 1 ∧
    (processPacket 10 SendOutcome.backpressure ⟨0, 0, 0, []⟩).packets_sent = 0 ∧
    (processPacket 10 SendOutcome.backpressure ⟨0, 0, 0, []⟩).bytes_sent = 0 ∧
    streamLoop ⟨0, 0, 0, []⟩ ((10, SendOutcome.backpressure) :: [(12, SendOutcome.success 5000)]) =
      streamLoop (processPacket 10 SendOutcome.backpressure ⟨0, 0, 0, []⟩)
        [(12, SendOutcome.success 5000)] ∧
    (streamLoop ⟨0, 0, 0, []⟩ [(10, SendOutcome.backpressure),
        (12, SendOutcome.success 5000)]).packets_dropped = 0 + 1 ∧
    (streamLoop ⟨0, 0, 0, []⟩ [(10, SendOutcome.backpressure),
        (12, SendOutcome.success 5000)]).packets_sent = 0 + 1 ∧
    (streamLoop ⟨0, 0, 0, []⟩ [(10, SendOutcome.backpressure),
        (12, SendOutcome.success 5000)]).bytes_sent = 0 + 12 :=
  C7_backpressure_drops_and_continues ⟨0, 0, 0, []⟩ 10 12 5000
    [(12, SendOutcome.success 5000)] (by norm_num [MAX_LATENCY_MS])

/-! ### Claim C8 — latency-budget violation: dropped yet still counted sent -/

/-- Claim C8: a packet whose measured send latency exceeds the per-packet
budget increments the drop counter by 1 while the sent and byte counters are
still updated, and the loop continues to the next packet. -/
theorem C8_latency_violation_dropped_but_sent (st : StreamStats) (sz : ℕ) (lat : ℚ)
    (rest : List (ℕ × SendOutcome)) (hlat : MAX_LATENCY_MS * 1000 < lat) :
    (processPacket sz (SendOutcome.success lat) st).packets_dropped =
      st.packets_dropped + 1 ∧
    (processPacket sz (SendOutcome.success lat) st).packets_sent = st.packets_sent + 1 ∧
    (processPacket sz (SendOutcome.success lat) st).bytes_sent = st.bytes_sent + sz ∧
    streamLoop st ((sz, SendOutcome.success lat) :: rest) =
      streamLoop (processPacket sz (SendOutcome.success lat) st) rest := by
  refine ⟨?_, ?_, ?_, rfl⟩ <;> simp [processPacket, hlat]

/-- Witness for C8 at a concrete state and a concrete over-budget latency. -/
theorem C8_witness :
    (processPacket 10 (SendOutcome.success 20000) ⟨0, 0, 0, []⟩).packets_dropped = 0 + 1 ∧
    (processPacket 10 (SendOutcome.success 20000) ⟨0, 0, 0, []⟩).packets_sent = 0 + 1 ∧
    (processPacket 10 (SendOutcome.success 20000) ⟨0, 0, 0, []⟩).bytes_sent = 0 + 10 ∧
    streamLoop ⟨0, 0, 0, []⟩ ((10, SendOutcome.success 20000) :: []) =
      streamLoop (processPacket 10 (SendOutcome.success 20000) ⟨0, 0, 0, []⟩) [] :=
  C8_latency_violation_dropped_but_sent ⟨0, 0, 0, []⟩ 10 20000 []
    (by norm_num [MAX_LATENCY_MS])

/-! ### Claim C9 — sequence ids -/

theorem generatePacketsAux_packet_id (b : ℤ) (rows : List (Row × Noise)) :
    ∀ (c n : ℕ), n < rows.length →
      ((generatePacketsAux b c rows).get? n).map F1TelemetryPacket.packet_id =
        some (c + n) := by
  induction rows with
  | nil => intro c n h; simp at h
  | cons rn rest ih =>
    intro c n h
    cases n with
    | zero => simp [generatePacketsAux, mkPacket]
    | succ n =>
      have h' : n < rest.length := by simpa using h
      have := ih (c + 1) n h'
      simpa [generatePacketsAux, Nat.add_comm, Nat.add_assoc, Nat.add_left_comm] using this

/-- Claim C9: for a session run over a fresh data source, the `n`-th yielded
packet carries `packet_id = n` — the sequence ids start at 0 and increase by
exactly 1. -/
theorem C9_packet_ids_consecutive_from_zero (b : ℤ) (rows : List (Row × Noise)) (n : ℕ)
    (h : n < rows.length) :
    ((generatePackets b rows).get? n).map F1TelemetryPacket.packet_id = some n := by
  simpa [generatePackets] using generatePacketsAux_packet_id b rows 0 n h

/-- Witness for C9 on a concrete single-row session. -/
theorem C9_witness :
    ((generatePackets 0 [(⟨none, none, none, none, none, none⟩, ⟨0, 0, 0⟩)]).get? 0).map
      F1TelemetryPacket.packet_id = some 0 :=
  C9_packet_ids_consecutive_from_zero 0
    [(⟨none, none, none, none, none, none⟩, ⟨0, 0, 0⟩)] 0 (by simp)

/-! ### Claim C3 — scaled boundaries tile the uniform index range -/

theorem chainFrom_le {s : ℕ} {bs : List LapBoundary} {r : ℕ} (h : ChainFrom s bs r) :
    s ≤ r := by
  induction bs generalizing s with
  | nil => simp only [ChainFrom] at h; omega
  | cons b bs ih =>
    simp only [ChainFrom] at h
    obtain ⟨hs, hse, hrest⟩ := h
    have := ih hrest
    omega

theorem chainFrom_mem_start {s : ℕ} {bs : List LapBoundary} {r : ℕ} (h : ChainFrom s bs r) :
    ∀ b ∈ bs, s ≤ b.start_idx := by
  induction bs generalizing s with
  | nil => simp
  | cons c cs ih =>
    simp only [ChainFrom] at h
    obtain ⟨hs, hse, hrest⟩ := h
    intro b hb
    rcases List.mem_cons.mp hb with rfl | hb
    · omega
    · have := ih hrest b hb
      omega

theorem chainFrom_pairwise {s : ℕ} {bs : List LapBoundary} {r : ℕ} (h : ChainFrom s bs r) :
    List.Pairwise (fun b c => b.end_idx + 1 ≤ c.start_idx) bs := by
  induction bs generalizing s with
  | nil => simp
  | cons b bs ih =>
    simp only [ChainFrom] at h
    obtain ⟨hs, hse, hrest⟩ := h
    exact List.Pairwise.cons (fun c hc => chainFrom_mem_start hrest c hc) (ih hrest)

theorem chainFrom_sum {s : ℕ} {bs : List LapBoundary} {r : ℕ} (h : ChainFrom s bs r) :
    sumSamples bs = (r : ℤ) - s := by
  induction bs generalizing s with
  | nil => simp only [ChainFrom] at h; simp [sumSamples, h]
  | cons b bs ih =>
    simp only [ChainFrom] at h
    obtain ⟨hs, hse, hrest⟩ := h
    have hsum : sumSamples (b :: bs) =
        ((b.end_idx : ℤ) - b.start_idx + 1) + sumSamples bs := by
      simp [sumSamples]
    rw [hsum, ih hrest]
    omega

theorem floor_mul_mono {x y σ : ℚ} (hxy : x ≤ y) (hσ : 0 ≤ σ) : ⌊x * σ⌋ ≤ ⌊y * σ⌋ :=
  Int.floor_le_floor (mul_le_mul_of_nonneg_right hxy hσ)

theorem chainFrom_cover {σ : ℚ} (hσ : 0 ≤ σ) {bs : List LapBoundary} :
    ∀ {s r : ℕ}, ChainFrom s bs r →
      ∀ i : ℤ, ⌊(s : ℚ) * σ⌋ ≤ i → i < ⌊(r : ℚ) * σ⌋ →
        ∃ b ∈ bs, ⌊(b.start_idx : ℚ) * σ⌋ ≤ i ∧ i ≤ ⌊((b.end_idx : ℚ) + 1) * σ⌋ - 1 := by
  induction bs with
  | nil =>
    intro s r h i h1 h2
    simp only [ChainFrom] at h
    subst h
    omega
  | cons b bs ih =>
    intro s r h i h1 h2
    simp only [ChainFrom] at h
    obtain ⟨hs, hse, hrest⟩ := h
    by_cases hcase : i < ⌊((b.end_idx : ℚ) + 1) * σ⌋
    · subst hs
      exact ⟨b, List.mem_cons_self _ _, h1, by omega⟩
    · push_neg at hcase
      have hnext : ⌊((b.end_idx + 1 : ℕ) : ℚ) * σ⌋ ≤ i := by push_cast; exact hcase
      obtain ⟨c, hc, hc1, hc2⟩ := ih hrest i hnext h2
      exact ⟨c, List.mem_cons_of_mem _ hc, hc1, hc2⟩

/-- Claim C3: for every valid lap-boundary table over a raw sequence of
length `R` and every uniform count `U`, the scaled ranges
`[int(start * scale), int((end + 1) * scale) - 1]` with
`scale = U / total_raw_count` are pairwise non-overlapping (ranges of earlier
boundaries end strictly before ranges of later boundaries start) and jointly
cover every index of `[0, U - 1]`. -/
theorem C3_scaled_boundaries_partition (bs : List LapBoundary) (R U : ℕ)
    (hV : ValidBoundaries bs R) :
    List.Pairwise
      (fun b c => scaledEnd (scaleFactor bs U) b < scaledStart (scaleFactor bs U) c) bs ∧
    ∀ i : ℤ, 0 ≤ i → i < (U : ℤ) →
      ∃ b ∈ bs, scaledStart (scaleFactor bs U) b ≤ i ∧ i ≤ scaledEnd (scaleFactor bs U) b := by
  obtain ⟨hne, hchain⟩ := hV
  have hR1 : 1 ≤ R := by
    cases bs with
    | nil => exact absurd rfl hne
    | cons b bs =>
      simp only [ChainFrom] at hchain
      have := chainFrom_le hchain.2.2
      omega
  have hsum : sumSamples bs = (R : ℤ) := by simpa using chainFrom_sum hchain
  have hσdef : scaleFactor bs U = (U : ℚ) / (R : ℚ) := by
    rw [scaleFactor, hsum, if_pos (by exact_mod_cast hR1)]
    rw [Int.cast_natCast]
  have hσ0 : 0 ≤ scaleFactor bs U := by
    rw [hσdef]
    positivity
  constructor
  · refine (chainFrom_pairwise hchain).imp ?_
    intro b c h
    have hfl : ⌊((b.end_idx : ℚ) + 1) * scaleFactor bs U⌋ ≤
        ⌊(c.start_idx : ℚ) * scaleFactor bs U⌋ := by
      refine floor_mul_mono ?_ hσ0
      exact_mod_cast h
    simp only [scaledStart, scaledEnd]
    omega
  · intro i h0 hU
    have h1 : ⌊((0 : ℕ) : ℚ) * scaleFactor bs U⌋ ≤ i := by simpa using h0
    have h2 : i < ⌊((R : ℕ) : ℚ) * scaleFactor bs U⌋ := by
      rw [hσdef]
      have hRQ : (R : ℚ) ≠ 0 := (Nat.cast_pos.mpr hR1).ne'
      have : (R : ℚ) * ((U : ℚ) / (R : ℚ)) = (U : ℚ) := by field_simp
      rw [this, Int.floor_natCast]
      exact hU
    obtain ⟨b, hb, hb1, hb2⟩ := chainFrom_cover hσ0 hchain i h1 h2
    exact ⟨b, hb, hb1, by simpa [scaledEnd] using hb2⟩

/-- Witness for C3 on a concrete two-lap table (raw length 5, uniform
count 7). -/
theorem C3_witness :
    List.Pairwise
      (fun b c => scaledEnd (scaleFactor [⟨0, 1, 1, 90⟩, ⟨2, 4, 2, 95⟩] 7) b <
        scaledStart (scaleFactor [⟨0, 1, 1, 90⟩, ⟨2, 4, 2, 95⟩] 7) c)
      [⟨0, 1, 1, 90⟩, ⟨2, 4, 2, 95⟩] ∧
    ∀ i : ℤ, 0 ≤ i → i < ((7 : ℕ) : ℤ) →
      ∃ b ∈ [⟨0, 1, 1, 90⟩, (⟨2, 4, 2, 95⟩ : LapBoundary)],
        scaledStart (scaleFactor [⟨0, 1, 1, 90⟩, ⟨2, 4, 2, 95⟩] 7) b ≤ i ∧
        i ≤ scaledEnd (scaleFactor [⟨0, 1, 1, 90⟩, ⟨2, 4, 2, 95⟩] 7) b :=
  C3_scaled_boundaries_partition [⟨0, 1, 1, 90⟩, ⟨2, 4, 2, 95⟩] 5 7
    ⟨by simp, by norm_num [ChainFrom]⟩

/-! ### Claim C4 — lap locator progress bounds and tail fallback -/

theorem lapScan_progress_bounds (σ : ℚ) (idx : ℕ) :
    ∀ (bs : List LapBoundary) (r : ℕ × ℚ × Option ℚ), lapScan σ idx bs = some r →
      0 ≤ r.2.1 ∧ r.2.1 ≤ 100 := by
  intro bs
  induction bs with
  | nil => intro r h; simp [lapScan] at h
  | cons b bs ih =>
    intro r h
    rw [lapScan] at h
    split at h
    · rename_i hguard
      obtain ⟨hlo, hhi⟩ := hguard
      rw [Option.some_inj] at h
      subst h
      have hlen : (0 : ℤ) < scaledEnd σ b - scaledStart σ b + 1 := by omega
      simp only [if_pos hlen]
      have hnum0 : (0 : ℚ) ≤ (((idx : ℤ) - scaledStart σ b : ℤ) : ℚ) :=
        Int.cast_nonneg.mpr (by omega)
      have hden : (0 : ℚ) < ((scaledEnd σ b - scaledStart σ b + 1 : ℤ) : ℚ) :=
        Int.cast_pos.mpr hlen
      constructor
      · exact mul_nonneg (div_nonneg hnum0 hden.le) (by norm_num)
      · have hnum : (((idx : ℤ) - scaledStart σ b : ℤ) : ℚ) ≤
            ((scaledEnd σ b - scaledStart σ b + 1 : ℤ) : ℚ) :=
          Int.cast_le.mpr (by omega)
        have hq : (((idx : ℤ) - scaledStart σ b : ℤ) : ℚ) /
            ((scaledEnd σ b - scaledStart σ b + 1 : ℤ) : ℚ) ≤ 1 :=
          (div_le_one hden).mpr hnum
        calc (((idx : ℤ) - scaledStart σ b : ℤ) : ℚ) /
            ((scaledEnd σ b - scaledStart σ b + 1 : ℤ) : ℚ) * 100
            ≤ 1 * 100 := by
              exact mul_le_mul_of_nonneg_right hq (by norm_num)
          _ = 100 := by norm_num
    · exact ih r h

/-- Claim C4: for every non-empty lap-boundary table and every uniform index
`i < U`, the lap locator returns a progress value in `[0, 100]`; and whenever
no scaled boundary contains `i`, it returns the last boundary's lap number at
exactly 100% progress together with that boundary's lap duration. -/
theorem C4_progress_in_range_and_tail_fallback (bs : List LapBoundary) (idx U : ℕ)
    (hne : bs ≠ []) (hidx : idx < U) :
    (0 ≤ (getCurrentLapInfo bs idx U).2.1 ∧ (getCurrentLapInfo bs idx U).2.1 ≤ 100) ∧
    (lapScan (scaleFactor bs U) idx bs = none →
      getCurrentLapInfo bs idx U =
        ((bs.getLast hne).lapNum, 100, some (bs.getLast hne).lapTime)) := by
  cases bs with
  | nil => exact absurd rfl hne
  | cons b rest =>
    constructor
    · cases hscan : lapScan (scaleFactor (b :: rest) U) idx (b :: rest) with
      | some r =>
        have hr := lapScan_progress_bounds (scaleFactor (b :: rest) U) idx (b :: rest) r hscan
        simpa [getCurrentLapInfo, hscan] using hr
      | none => simp [getCurrentLapInfo, hscan]
    · intro hnone
      simp [getCurrentLapInfo, hnone]

/-- Witness for C4 on a concrete one-lap table. -/
theorem C4_witness :
    (0 ≤ (getCurrentLapInfo [⟨0, 4, 1, 90⟩] 3 7).2.1 ∧
      (getCurrentLapInfo [⟨0, 4, 1, 90⟩] 3 7).2.1 ≤ 100) ∧
    (lapScan (scaleFactor [⟨0, 4, 1, 90⟩] 7) 3 [⟨0, 4, 1, 90⟩] = none →
      getCurrentLapInfo [⟨0, 4, 1, 90⟩] 3 7 =
        ((([⟨0, 4, 1, 90⟩] : List LapBoundary).getLast (List.cons_ne_nil _ _)).lapNum, 100,
         some ((([⟨0, 4, 1, 90⟩] : List LapBoundary).getLast (List.cons_ne_nil _ _)).lapTime))) :=
  C4_progress_in_range_and_tail_fallback [⟨0, 4, 1, 90⟩] 3 7 (List.cons_ne_nil _ _)
    (by norm_num)

/-! ### Claim C1 — resampler output count and spacing -/

theorem insertByTime_length {α : Type} (p : ℚ × α) (l : List (ℚ × α)) :
    (insertByTime p l).length = l.length + 1 := by
  induction l with
  | nil => rfl
  | cons q qs ih =>
    simp only [insertByTime]
    split
    · simp
    · simp [ih]

theorem sortByTime_length {α : Type} (l : List (ℚ × α)) :
    (sortByTime l).length = l.length := by
  induction l with
  | nil => rfl
  | cons p ps ih =>
    show (insertByTime p (sortByTime ps)).length = ps.length + 1
    rw [insertByTime_length, ih]

theorem cleanSeries_ne_nil {α : Type} {l : List (ℚ × α)} (h : l ≠ []) :
    cleanSeries l ≠ [] := by
  cases l with
  | nil => exact absurd rfl h
  | cons p ps =>
    have hd : dropDupTimes (p :: ps) = p :: dropDupTimesAux [p.1] ps := by
      simp [dropDupTimes, dropDupTimesAux]
    have hlen : (cleanSeries (p :: ps)).length = (dropDupTimesAux [p.1] ps).length + 1 := by
      rw [cleanSeries, hd, sortByTime_length]
      rfl
    intro hc
    rw [hc] at hlen
    simp at hlen

theorem linspace_length (d : ℚ) (n : ℕ) : (linspace d n).length = n := by
  rw [linspace]
  split <;> rw [List.length_map, List.length_range]

theorem linspace_getElem? {d : ℚ} {n i : ℕ} (hn : 2 ≤ n) (hi : i < n) :
    (linspace d n)[i]? = some (d * (i : ℚ) / ((n : ℚ) - 1)) := by
  rw [linspace, if_neg (by omega)]
  rw [List.getElem?_map, List.getElem?_range hi]
  rfl

/-- Claim C1 as amended: for every non-empty raw input with
`floor(duration * rate) > 0`, the resampler output has exactly
`floor(duration * rate)` samples, but consecutive output time offsets differ
by `duration / (count - 1)` — the grid spans `[start, start + duration]`
end-inclusive — not by `1 / rate`. -/
theorem C1_amended_count_and_spacing {α : Type} (raw : List (ℚ × α)) (hz : ℕ) (i : ℕ)
    (hne : raw ≠ []) (hpos : 0 < targetSamples raw hz)
    (hi : i + 1 < (resampleGrid raw hz).length) :
    (resampleGrid raw hz).length = (targetSamples raw hz).toNat ∧
    (resampleGrid raw hz).getD (i + 1) 0 - (resampleGrid raw hz).getD i 0 =
      rawSpan raw / ((targetSamples raw hz : ℚ) - 1) := by
  obtain ⟨t, ts, h⟩ : ∃ t ts, (cleanSeries raw).map Prod.fst = t :: ts := by
    cases hc : (cleanSeries raw).map Prod.fst with
    | nil => exact absurd (List.map_eq_nil.mp hc) (cleanSeries_ne_nil hne)
    | cons t ts => exact ⟨t, ts, rfl⟩
  set D := (t :: ts).getLast (List.cons_ne_nil _ _) - t with hD
  have hspan : rawSpan raw = D := by simp only [rawSpan, h]
  have htarget : targetSamples raw hz = ⌊D * hz⌋ := by
    simp only [targetSamples, hspan]
  set N := (⌊D * hz⌋).toNat with hN
  have hgrid : resampleGrid raw hz = (linspace D N).map (fun x => x + t) := by
    simp only [resampleGrid, h]
  have hlen : (resampleGrid raw hz).length = N := by
    rw [hgrid, List.length_map, linspace_length]
  refine ⟨by rw [hlen, htarget], ?_⟩
  have hNi : i + 1 < N := by rwa [hlen] at hi
  have hn2 : 2 ≤ N := by omega
  have hcast : ((targetSamples raw hz : ℤ) : ℚ) = (N : ℚ) := by
    rw [htarget]
    exact_mod_cast (Int.toNat_of_nonneg (by rw [htarget] at hpos; exact hpos.le)).symm
  have e1 : (resampleGrid raw hz).getD (i + 1) 0 = D * ((i : ℚ) + 1) / ((N : ℚ) - 1) + t := by
    rw [List.getD_eq_getElem?_getD, hgrid, List.getElem?_map, linspace_getElem? hn2 hNi]
    simp only [Option.map_some', Option.getD_some]
    push_cast
    ring
  have e0 : (resampleGrid raw hz).getD i 0 = D * (i : ℚ) / ((N : ℚ) - 1) + t := by
    rw [List.getD_eq_getElem?_getD, hgrid, List.getElem?_map, linspace_getElem? hn2 (by omega)]
    rfl
  rw [e1, e0, hspan, hcast]
  ring

/-- Counterexample for C1 as stated: raw times `{0 s, 1 s}` at a target rate
of 2 Hz span 1 s, give `floor(1 * 2) = 2 > 0` output samples, and the output
time offsets are `[0, 1]` — the consecutive difference is 1 s, not
`1 / target_rate = 0.5 s`. -/
theorem C1_claim_counterexample :
    ([((0 : ℚ), (0 : ℚ)), (1, 1)] : List (ℚ × ℚ)) ≠ [] ∧
    0 < targetSamples [((0 : ℚ), (0 : ℚ)), (1, 1)] 2 ∧
    resampleGrid [((0 : ℚ), (0 : ℚ)), (1, 1)] 2 = [0, 1] ∧
    (resampleGrid [((0 : ℚ), (0 : ℚ)), (1, 1)] 2).getD 1 0 -
      (resampleGrid [((0 : ℚ), (0 : ℚ)), (1, 1)] 2).getD 0 0 ≠ 1 / (2 : ℚ) := by
  have hclean : cleanSeries ([((0 : ℚ), (0 : ℚ)), (1, 1)] : List (ℚ × ℚ)) =
      [((0 : ℚ), (0 : ℚ)), (1, 1)] := by
    norm_num [cleanSeries, dropDupTimes, dropDupTimesAux, sortByTime, insertByTime]
  have hgrid : resampleGrid ([((0 : ℚ), (0 : ℚ)), (1, 1)] : List (ℚ × ℚ)) 2 = [0, 1] := by
    rw [resampleGrid, hclean]
    norm_num [List.getLast, linspace, List.range_succ, (show Int.toNat 2 = 2 from rfl)]
  refine ⟨by simp, ?_, hgrid, ?_⟩
  · rw [targetSamples, rawSpan, hclean]
    norm_num [List.getLast]
  · rw [hgrid]
    norm_num

/-- Witness for the amended C1 at the concrete input of the counterexample:
two samples spanning 1 s at 2 Hz give 2 output samples spaced by
`1 / (2 - 1) = 1` second. -/
theorem C1_witness :
    (resampleGrid ([((0 : ℚ), (0 : ℚ)), (1, 1)] : List (ℚ × ℚ)) 2).length =
      (targetSamples ([((0 : ℚ), (0 : ℚ)), (1, 1)] : List (ℚ × ℚ)) 2).toNat ∧
    (resampleGrid ([((0 : ℚ), (0 : ℚ)), (1, 1)] : List (ℚ × ℚ)) 2).getD 1 0 -
      (resampleGrid ([((0 : ℚ), (0 : ℚ)), (1, 1)] : List (ℚ × ℚ)) 2).getD 0 0 =
      rawSpan ([((0 : ℚ), (0 : ℚ)), (1, 1)] : List (ℚ × ℚ)) /
        ((targetSamples ([((0 : ℚ), (0 : ℚ)), (1, 1)] : List (ℚ × ℚ)) 2 : ℚ) - 1) := by
  have hclean : cleanSeries ([((0 : ℚ), (0 : ℚ)), (1, 1)] : List (ℚ × ℚ)) =
      [((0 : ℚ), (0 : ℚ)), (1, 1)] := by
    norm_num [cleanSeries, dropDupTimes, dropDupTimesAux, sortByTime, insertByTime]
  refine C1_amended_count_and_spacing _ 2 0 (by simp) ?_ ?_
  · rw [targetSamples, rawSpan, hclean]
    norm_num [List.getLast]
  · have hgrid : resampleGrid ([((0 : ℚ), (0 : ℚ)), (1, 1)] : List (ℚ × ℚ)) 2 = [0, 1] := by
      rw [resampleGrid, hclean]
      norm_num [List.getLast, linspace, List.range_succ, (show Int.toNat 2 = 2 from rfl)]
    rw [hgrid]
    norm_num

/-! ### Claim C2 — what value lands on a grid point between two samples -/

theorem find?_append_none {α : Type} {p : α → Bool} {l₁ : List α} (l₂ : List α)
    (h : ∀ a ∈ l₁, ¬ p a) : (l₁ ++ l₂).find? p = l₂.find? p := by
  induction l₁ with
  | nil => simp
  | cons a l ih =>
    rw [List.cons_append, List.find?_cons_of_neg _ (h a (List.mem_cons_self a l)),
        ih (fun x hx => h x (List.mem_cons_of_mem a hx))]

/-- On a time-sorted channel, pandas nearest-reindexing at a target time that
lies strictly between two consecutive sample times resolves to the nearer of
those two bracketing samples, preferring the later one when equidistant. -/
theorem nearestPoint_bracket (pre post : List (ℚ × ℚ)) (a b : ℚ × ℚ) (t : ℚ)
    (hpre : ∀ p ∈ pre, p.1 < a.1) (hpost : ∀ p ∈ post, b.1 < p.1)
    (hat : a.1 < t) (htb : t < b.1) :
    nearestPoint (pre ++ a :: b :: post) t =
      some (if t - a.1 < b.1 - t then a else b) := by
  have hpad : padPoint (pre ++ a :: b :: post) t = some a := by
    rw [padPoint, List.filter_append]
    have h1 : pre.filter (fun p => decide (p.1 ≤ t)) = pre :=
      List.filter_eq_self.mpr (fun p hp => by
        simpa using ((hpre p hp).trans hat).le)
    have h2 : (a :: b :: post).filter (fun p => decide (p.1 ≤ t)) = [a] := by
      rw [List.filter_cons_of_pos (by simpa using hat.le),
          List.filter_cons_of_neg (by simpa using htb)]
      rw [List.filter_eq_nil_iff.mpr (fun p hp => by
        simpa using htb.trans (hpost p hp))]
    rw [h1, h2]
    exact List.getLast?_concat pre
  have hback : backfillPoint (pre ++ a :: b :: post) t = some b := by
    rw [backfillPoint,
        find?_append_none _ (fun p hp => by
          simpa using (hpre p hp).trans hat),
        List.find?_cons_of_neg _ (by simpa using hat),
        List.find?_cons_of_pos _ (by simpa using htb.le)]
  rw [nearestPoint, hpad, hback]
  exact (apply_ite some _ a b).symm

/-- Claim C2 as amended: at a uniform grid time lying strictly between two
consecutive original sample times, the resampled continuous channel carries
the value of the nearer bracketing original sample (the later one when
equidistant) — nearest-neighbour alignment leaves no missing values, so the
subsequent linear-interpolation and 0-fill passes change nothing. -/
theorem C2_amended_nearest_value (raw : List (ℚ × Option ℚ)) (hz : ℕ)
    (pre post : List (ℚ × ℚ)) (a b : ℚ × ℚ) (i : ℕ) (t : ℚ)
    (hdecomp : (cleanSeries raw).map (fun p => (p.1, p.2.getD 0)) = pre ++ a :: b :: post)
    (hpre : ∀ p ∈ pre, p.1 < a.1) (hpost : ∀ p ∈ post, b.1 < p.1)
    (hat : a.1 < t) (htb : t < b.1)
    (hgrid : (resampleGrid raw hz)[i]? = some t) :
    (resampleContinuous raw hz)[i]? =
      some (if t - a.1 < b.1 - t then a.2 else b.2) := by
  have hnear : nearestPoint ((cleanSeries raw).map (fun p => (p.1, p.2.getD 0))) t =
      some (if t - a.1 < b.1 - t then a else b) := by
    rw [hdecomp]
    exact nearestPoint_bracket pre post a b t hpre hpost hat htb
  set pts := (cleanSeries raw).map (fun p => (p.1, p.2.getD 0)) with hpts
  set grid := resampleGrid raw hz with hgriddef
  have hv : (reindexNearest pts grid)[i]? =
      some (some ((if t - a.1 < b.1 - t then a else b).2)) := by
    rw [reindexNearest, List.getElem?_map, hgrid]
    simp only [Option.map_some', hnear]
  have hlen : i < (reindexNearest pts grid).length := by
    by_contra hcon
    push_neg at hcon
    rw [List.getElem?_eq_none hcon] at hv
    exact Option.noConfusion hv
  have hinterp : (interpolateLinear (reindexNearest pts grid))[i]? =
      some (interpAt (reindexNearest pts grid) i) := by
    rw [interpolateLinear, List.getElem?_map, List.getElem?_range hlen]
    rfl
  have hAt : interpAt (reindexNearest pts grid) i =
      some ((if t - a.1 < b.1 - t then a else b).2) := by
    rw [interpAt, hv]
  have hrc : resampleContinuous raw hz = fillna0 (interpolateLinear (reindexNearest pts grid)) := rfl
  rw [hrc, fillna0, List.getElem?_map, hinterp, hAt]
  simp only [Option.map_some', Option.getD_some, apply_ite Prod.snd]

/-- Counterexample for C2 as stated: for the channel `{(0 s, 0), (1 s, 100)}`
resampled at 4 Hz, the grid point at `1/3 s` lies strictly between the two
samples, yet the output value there is 0 (the nearest sample's value), not
the linear interpolation `0 + (100 - 0) * ((1/3 - 0) / (1 - 0)) = 100/3`. -/
theorem C2_claim_counterexample :
    (resampleGrid [((0 : ℚ), some (0 : ℚ)), (1, some 100)] 4)[1]? = some (1/3) ∧
    (0 : ℚ) < 1/3 ∧ (1/3 : ℚ) < 1 ∧
    (resampleContinuous [((0 : ℚ), some (0 : ℚ)), (1, some 100)] 4)[1]? = some 0 ∧
    (0 : ℚ) + (100 - 0) * ((1/3 - 0) / (1 - 0)) ≠ 0 := by
  have hclean : cleanSeries ([((0 : ℚ), some (0 : ℚ)), (1, some 100)] : List (ℚ × Option ℚ)) =
      [((0 : ℚ), some (0 : ℚ)), (1, some 100)] := by
    norm_num [cleanSeries, dropDupTimes, dropDupTimesAux, sortByTime, insertByTime]
  have hgrid : resampleGrid ([((0 : ℚ), some (0 : ℚ)), (1, some 100)] : List (ℚ × Option ℚ)) 4 =
      [0, 1/3, 2/3, 1] := by
    rw [resampleGrid, hclean]
    norm_num [List.getLast, linspace, List.range_succ, (show Int.toNat 4 = 4 from rfl)]
  have hpts : (cleanSeries ([((0 : ℚ), some (0 : ℚ)), (1, some 100)] : List (ℚ × Option ℚ))).map
      (fun p => (p.1, p.2.getD 0)) = [((0 : ℚ), (0 : ℚ)), (1, 100)] := by
    rw [hclean]
    rfl
  have hv : reindexNearest [((0 : ℚ), (0 : ℚ)), (1, 100)] [0, 1/3, 2/3, 1] =
      [some 0, some 0, some 100, some 100] := by
    norm_num [reindexNearest, nearestPoint, padPoint, backfillPoint,
      List.filter, List.find?, List.getLast?, List.getLast]
  have hil : interpolateLinear [some (0 : ℚ), some 0, some 100, some 100] =
      [some 0, some 0, some 100, some 100] := by
    norm_num [interpolateLinear, interpAt, List.range_succ]
  have hcalc : resampleContinuous ([((0 : ℚ), some (0 : ℚ)), (1, some 100)] : List (ℚ × Option ℚ)) 4 =
      fillna0 (interpolateLinear (reindexNearest [((0 : ℚ), (0 : ℚ)), (1, 100)] [0, 1/3, 2/3, 1])) := by
    simp only [resampleContinuous]
    rw [hpts, hgrid]
  refine ⟨by rw [hgrid]; rfl, by norm_num, by norm_num, ?_, by norm_num⟩
  rw [hcalc, hv, hil]
  rfl

/-- Witness for the amended C2 at the counterexample's input: the value at
the grid point `1/3 s` is that of the nearer bracketing sample. -/
theorem C2_witness :
    (resampleContinuous [((0 : ℚ), some (0 : ℚ)), (1, some 100)] 4)[1]? =
      some (if (1/3 : ℚ) - 0 < 1 - 1/3 then (0 : ℚ) else 100) := by
  have hclean : cleanSeries ([((0 : ℚ), some (0 : ℚ)), (1, some 100)] : List (ℚ × Option ℚ)) =
      [((0 : ℚ), some (0 : ℚ)), (1, some 100)] := by
    norm_num [cleanSeries, dropDupTimes, dropDupTimesAux, sortByTime, insertByTime]
  have hgrid : resampleGrid ([((0 : ℚ), some (0 : ℚ)), (1, some 100)] : List (ℚ × Option ℚ)) 4 =
      [0, 1/3, 2/3, 1] := by
    rw [resampleGrid, hclean]
    norm_num [List.getLast, linspace, List.range_succ, (show Int.toNat 4 = 4 from rfl)]
  exact C2_amended_nearest_value [((0 : ℚ), some (0 : ℚ)), (1, some 100)] 4 [] []
    ((0 : ℚ), (0 : ℚ)) ((1 : ℚ), (100 : ℚ)) 1 (1/3)
    (by rw [hclean]; rfl) (by simp) (by simp) (by norm_num) (by norm_num)
    (by rw [hgrid]; rfl)

end TelemetryPipeline
